import Mathlib

/-!
Verification of the appointment scheduling and booking engine of the
hospital-assistant backend (`backend/services/appointment_service.py`).

The Python service is shallowly embedded: the in-memory appointment dict
becomes an association list with Python-dict insert/update semantics, the
JSON file becomes an explicit `FileState` value, `datetime.now()` becomes an
explicit `Clock` parameter, and every public operation becomes a pure
function from the reloaded in-memory store to a result plus the new store
and the data written to disk.  Python string comparison (used by the code
on `"HH:MM"` slot strings) is embedded as lexicographic comparison on
character code points, and `datetime.strptime`/`date.weekday()` are embedded
by an explicit parser and a days-from-civil computation.
-/

/-! ## Python-style string comparison (lexicographic on code points) -/

def charListLt : List Char → List Char → Bool
  | [], [] => false
  | [], _ :: _ => true
  | _ :: _, [] => false
  | a :: as, b :: bs => decide (a < b) || (decide (a = b) && charListLt as bs)

/-- Embeds Python `a < b` on strings. -/
def strLt (a b : String) : Bool := charListLt a.toList b.toList

/-- Embeds Python `a <= b` on strings (total order, so `a <= b` iff `not (b < a)`). -/
def strLe (a b : String) : Bool := !(strLt b a)

/-- Embeds Python `str.strip()`: drop leading and trailing whitespace. -/
def pyStrip (s : String) : String :=
  String.mk (((s.toList.dropWhile Char.isWhitespace).reverse.dropWhile Char.isWhitespace).reverse)

/-! ## Calendar dates, `strptime` parsing and `date.weekday()` -/

structure Date where
  year : Nat
  month : Nat
  day : Nat
deriving DecidableEq, Repr

/-- Embeds Python date comparison (`date` objects compare chronologically). -/
def dateLtB (a b : Date) : Bool :=
  decide (a.year < b.year) ||
    (decide (a.year = b.year) &&
      (decide (a.month < b.month) || (decide (a.month = b.month) && decide (a.day < b.day))))

def leapYear (y : Nat) : Bool :=
  (decide (y % 4 = 0) && decide (y % 100 ≠ 0)) || decide (y % 400 = 0)

def daysInMonth (y m : Nat) : Nat :=
  if m = 2 then (if leapYear y then 29 else 28)
  else if m = 4 ∨ m = 6 ∨ m = 9 ∨ m = 11 then 30
  else 31

/-- Split a character list at every occurrence of `sep` (Python `str.split(sep)`). -/
def splitChar (sep : Char) : List Char → List (List Char)
  | [] => [[]]
  | c :: rest =>
    match splitChar sep rest with
    | [] => [[]]
    | g :: gs => if c = sep then [] :: g :: gs else (c :: g) :: gs

def digitsToNat (l : List Char) : Nat :=
  l.foldl (fun a c => a * 10 + (c.toNat - 48)) 0

/-- Embeds `datetime.strptime(s, "%Y-%m-%d")`: a 4-digit year, a 1-2 digit month
and a 1-2 digit day separated by `-`, forming a valid calendar date. -/
def parseDate (s : String) : Option Date :=
  match splitChar '-' s.toList with
  | [yc, mc, dc] =>
    if yc.length = 4 ∧ yc.all Char.isDigit ∧
        1 ≤ mc.length ∧ mc.length ≤ 2 ∧ mc.all Char.isDigit ∧
        1 ≤ dc.length ∧ dc.length ≤ 2 ∧ dc.all Char.isDigit then
      let y := digitsToNat yc
      let m := digitsToNat mc
      let d := digitsToNat dc
      if 1 ≤ y ∧ 1 ≤ m ∧ m ≤ 12 ∧ 1 ≤ d ∧ d ≤ daysInMonth y m then
        some ⟨y, m, d⟩
      else none
    else none
  | _ => none

/-- Embeds `datetime.strptime(s, "%H:%M")`: hour 0-23 and minute 0-59,
1-2 digits each, separated by `:`. -/
def parseTime (s : String) : Option (Nat × Nat) :=
  match splitChar ':' s.toList with
  | [hc, mc] =>
    if 1 ≤ hc.length ∧ hc.length ≤ 2 ∧ hc.all Char.isDigit ∧
        1 ≤ mc.length ∧ mc.length ≤ 2 ∧ mc.all Char.isDigit then
      let h := digitsToNat hc
      let m := digitsToNat mc
      if h ≤ 23 ∧ m ≤ 59 then some (h, m) else none
    else none
  | _ => none

/-- Days since the proleptic Gregorian epoch (days-from-civil), valid for
years `≥ 1`; used only to compute the weekday. -/
def rataDie (y m d : Nat) : Nat :=
  let y' := if m ≤ 2 then y - 1 else y
  let era := y' / 400
  let yoe := y' % 400
  let mp := (m + 9) % 12
  let doy := (153 * mp + 2) / 5 + d - 1
  let doe := yoe * 365 + yoe / 4 - yoe / 100 + doy
  era * 146097 + doe

/-- Embeds Python `date.weekday()`: 0 = Monday … 6 = Sunday. -/
def weekday (dt : Date) : Nat := (rataDie dt.year dt.month dt.day + 2) % 7

/-! ## The schedule catalog (`DEPARTMENTS`, `DOCTOR_SCHEDULE`, `ALL_TIME_SLOTS`) -/

structure Schedule where
  days : List Nat
  startTime : String
  endTime : String
deriving DecidableEq, Repr

def DEPARTMENTS : List (String × List String) := [
  ("Cardiology", ["Dr. Harsh Sharma"]),
  ("Pediatrics", ["Dr. Arjun Gupta"]),
  ("Orthopedics", ["Dr. Sameer Khan"]),
  ("Neurology", ["Dr. Ananya Reddy"]),
  ("Oncology", ["Dr. Fatima Ahmed"]),
  ("Dermatology", ["Dr. Meera Desai", "Dr. Rohit Malhotra"]),
  ("General Surgery", ["Dr. Vikram Singh", "Dr. Anjali Mehta"]),
  ("General Medicine", ["Dr. Rajesh Kumar", "Dr. Kavita Joshi", "Dr. Suresh Iyer"]),
  ("Gastroenterology", ["Dr. Anil Verma"]),
  ("Nephrology", ["Dr. Pooja Nair"]),
  ("OB-GYN", ["Dr. Sneha Pillai", "Dr. Ritu Kapoor"]),
  ("Ophthalmology", ["Dr. Manish Agarwal"]),
  ("ENT", ["Dr. Deepak Rao"]),
  ("Psychiatry", ["Dr. Shalini Gupta", "Dr. Aryan Choudhury"]),
  ("Pulmonology", ["Dr. Karan Bhatia"]),
  ("Endocrinology", ["Dr. Nisha Patel"]),
  ("Urology", ["Dr. Abhishek Jain"]),
  ("Rheumatology", ["Dr. Priyanka Sharma"])]

def DOCTOR_SCHEDULE : List (String × Schedule) := [
  ("Dr. Harsh Sharma", ⟨[0, 1, 2, 3, 4], "09:00", "17:00"⟩),
  ("Dr. Arjun Gupta", ⟨[0, 2, 4], "10:00", "18:00"⟩),
  ("Dr. Sameer Khan", ⟨[1, 3, 5], "08:00", "16:00"⟩),
  ("Dr. Ananya Reddy", ⟨[0, 1, 2, 3], "11:00", "19:00"⟩),
  ("Dr. Fatima Ahmed", ⟨[0, 1, 2, 3, 4], "09:00", "17:00"⟩),
  ("Dr. Meera Desai", ⟨[0, 2, 4], "09:00", "17:00"⟩),
  ("Dr. Rohit Malhotra", ⟨[1, 3, 5], "10:00", "16:00"⟩),
  ("Dr. Vikram Singh", ⟨[0, 1, 2, 3, 4], "07:00", "15:00"⟩),
  ("Dr. Anjali Mehta", ⟨[1, 2, 4], "09:00", "17:00"⟩),
  ("Dr. Rajesh Kumar", ⟨[0, 1, 2, 3, 4, 5], "08:00", "14:00"⟩),
  ("Dr. Kavita Joshi", ⟨[0, 2, 3, 4], "14:00", "20:00"⟩),
  ("Dr. Suresh Iyer", ⟨[1, 3, 5], "09:00", "15:00"⟩),
  ("Dr. Anil Verma", ⟨[0, 2, 4], "10:00", "18:00"⟩),
  ("Dr. Pooja Nair", ⟨[1, 3, 5], "09:00", "16:00"⟩),
  ("Dr. Sneha Pillai", ⟨[0, 1, 2, 3, 4], "09:00", "17:00"⟩),
  ("Dr. Ritu Kapoor", ⟨[0, 2, 3], "10:00", "18:00"⟩),
  ("Dr. Manish Agarwal", ⟨[0, 1, 3, 4], "08:00", "16:00"⟩),
  ("Dr. Deepak Rao", ⟨[0, 2, 4], "09:00", "17:00"⟩),
  ("Dr. Shalini Gupta", ⟨[0, 1, 2, 3, 4], "10:00", "18:00"⟩),
  ("Dr. Aryan Choudhury", ⟨[1, 3, 5], "11:00", "17:00"⟩),
  ("Dr. Karan Bhatia", ⟨[0, 2, 4], "09:00", "16:00"⟩),
  ("Dr. Nisha Patel", ⟨[1, 3], "10:00", "17:00"⟩),
  ("Dr. Abhishek Jain", ⟨[0, 1, 3], "08:00", "15:00"⟩),
  ("Dr. Priyanka Sharma", ⟨[2, 4], "10:00", "16:00"⟩)]

def ALL_TIME_SLOTS : List String := [
  "07:00", "07:30", "08:00", "08:30", "09:00", "09:30", "10:00", "10:30",
  "11:00", "11:30", "12:00", "12:30", "13:00", "13:30", "14:00", "14:30",
  "15:00", "15:30", "16:00", "16:30", "17:00", "17:30", "18:00", "18:30", "19:00", "19:30"]

/-- Embeds Python dict key lookup on an association list (first binding wins). -/
def dictGet (k : String) : List (String × α) → Option α
  | [] => none
  | (k', v) :: rest => if k' = k then some v else dictGet k rest

/-- Embeds `self.DEPARTMENTS[department]` (with its `in` membership test). -/
def deptDoctors (department : String) : Option (List String) :=
  dictGet department DEPARTMENTS

/-- Embeds `self.DOCTOR_SCHEDULE.get(doctor)`. -/
def schedGet (doctor : String) : Option Schedule :=
  dictGet doctor DOCTOR_SCHEDULE

def schedStart (doctor : String) : String :=
  ((schedGet doctor).map Schedule.startTime).getD "09:00"

def schedEnd (doctor : String) : String :=
  ((schedGet doctor).map Schedule.endTime).getD "17:00"

/-- Embeds `AppointmentService._get_doctor_time_slots`.  A doctor absent from
`DOCTOR_SCHEDULE` gets the default 09:00-17:00 slots without any weekday
check; a doctor present in it gets the slots inside the working hours, or
the empty list when the weekday is off-schedule or the date fails to parse. -/
def get_doctor_time_slots (doctor date : String) : List String :=
  match schedGet doctor with
  | none => ALL_TIME_SLOTS.filter (fun s => strLe "09:00" s && strLt s "17:00")
  | some sched =>
    match parseDate date with
    | none => []
    | some d =>
      if weekday d ∈ sched.days then
        ALL_TIME_SLOTS.filter (fun s => strLe sched.startTime s && strLt s sched.endTime)
      else []

/-! ## Appointment records and the in-memory store -/

structure Appointment where
  id : String
  user_id : String
  patient_name : String
  patient_age : Int
  patient_gender : String
  department : String
  doctor : String
  date : String
  time : String
  status : String
  created_at : String
deriving DecidableEq, Repr

/-- The in-memory state of `AppointmentService`: the appointment dict
(`id -> record`, embedded as an association list in insertion order) and the
monotonic `_counter`. -/
structure Store where
  appointments : List (String × Appointment)
  counter : Nat
deriving DecidableEq, Repr

/-- Embeds Python dict assignment `d[k] = v`: update in place when the key
exists, append otherwise. -/
def dictInsert (k : String) (v : Appointment) :
    List (String × Appointment) → List (String × Appointment)
  | [] => [(k, v)]
  | (k', v') :: rest =>
    if k' = k then (k, v) :: rest else (k', v') :: dictInsert k v rest

/-- Embeds the in-place status mutation `apt.status = s` on the record stored
under key `k`. -/
def dictSetStatus (k s : String) :
    List (String × Appointment) → List (String × Appointment)
  | [] => []
  | (k', v) :: rest =>
    if k' = k then (k', { v with status := s }) :: rest
    else (k', v) :: dictSetStatus k s rest

/-- Embeds `self.appointments.values()`. -/
def values (st : Store) : List Appointment := st.appointments.map Prod.snd

/-! ## Decimal formatting for appointment identifiers -/

/-- Fuel-driven decimal digit expansion; `fuel > n` suffices. -/
def toDigitsGo : Nat → Nat → List Char
  | 0, _ => []
  | fuel + 1, n =>
    if n < 10 then [Nat.digitChar n]
    else toDigitsGo fuel (n / 10) ++ [Nat.digitChar (n % 10)]

/-- Decimal representation of a natural number (Python `"%d"`). -/
def natRepr (n : Nat) : List Char := toDigitsGo (n + 1) n

/-- Zero-pad a digit list on the left to width `w` (Python `"%04d"` uses `w = 4`). -/
def padZeros (w : Nat) (l : List Char) : List Char :=
  List.replicate (w - l.length) '0' ++ l

/-- Embeds `f"APT-{datetime.now().strftime('%Y%m%d')}-{self._counter:04d}"`. -/
def mkId (dateCompact : String) (n : Nat) : String :=
  "APT-" ++ dateCompact ++ "-" ++ String.mk (padZeros 4 (natRepr n))

/-- Embeds `date.isoformat()` (`YYYY-MM-DD`, zero-padded). -/
def formatDate (d : Date) : String :=
  String.mk (padZeros 4 (natRepr d.year) ++ '-' :: padZeros 2 (natRepr d.month)
    ++ '-' :: padZeros 2 (natRepr d.day))

/-- Every reading of `datetime.now()` the service performs, fixed for the
duration of one call: the current calendar date, `strftime("%H:%M")`,
`strftime("%Y%m%d")` and `isoformat()`. -/
structure Clock where
  today : Date
  timeOfDay : String
  todayCompact : String
  isoNow : String
deriving DecidableEq, Repr

/-! ## The durable JSON file -/

/-- One appointment entry as it sits in the JSON file.  Fields that old
records may lack (and `status`, which has a pydantic default) are optional. -/
structure AptJson where
  id : String
  user_id : String
  patient_name : Option String
  user_name : Option String
  patient_age : Option Int
  patient_gender : Option String
  department : String
  doctor : String
  date : String
  time : String
  status : Option String
  created_at : String
deriving DecidableEq, Repr

/-- The parsed content of `appointments.json`. -/
structure FileData where
  appointments : List (String × AptJson)
  counter : Option Nat
  last_updated : String
deriving DecidableEq, Repr

/-- The durable medium: absent, unreadable/unparseable, or holding data. -/
inductive FileState where
  | missing
  | corrupt
  | data (d : FileData)
deriving DecidableEq, Repr

/-- Embeds `Appointment.model_dump()` as an entry of the saved JSON object. -/
def dumpApt (a : Appointment) : AptJson :=
  ⟨a.id, a.user_id, some a.patient_name, none, some a.patient_age, some a.patient_gender,
    a.department, a.doctor, a.date, a.time, some a.status, a.created_at⟩

/-- Embeds `AppointmentService._save_to_file`: the full map, the counter and a
last-updated timestamp written as one unit. -/
def dumpStore (st : Store) (c : Clock) : FileData :=
  ⟨st.appointments.map (fun p => (p.1, dumpApt p.2)), some st.counter, c.isoNow⟩

/-- Embeds the old-schema migration plus pydantic validation applied to one
JSON entry: a record without `patient_name` gets the documented defaults; a
record with `patient_name` but without `patient_age` or `patient_gender`
fails validation (`none`). -/
def migrate (j : AptJson) : Option Appointment :=
  match j.patient_name with
  | none =>
    some ⟨j.id, j.user_id, j.user_name.getD "Unknown", j.patient_age.getD 0,
      j.patient_gender.getD "Other", j.department, j.doctor, j.date, j.time,
      j.status.getD "confirmed", j.created_at⟩
  | some n =>
    match j.patient_age, j.patient_gender with
    | some age, some g =>
      some ⟨j.id, j.user_id, n, age, g, j.department, j.doctor, j.date, j.time,
        j.status.getD "confirmed", j.created_at⟩
    | _, _ => none

/-- The record-loading loop of `_load_from_file`: entries are inserted into
the existing dict one by one; a record that fails validation raises, which
the surrounding `except` turns into stopping with what was loaded so far. -/
def loadRecords : List (String × AptJson) → List (String × Appointment) →
    List (String × Appointment)
  | [], acc => acc
  | (k, j) :: rest, acc =>
    match migrate j with
    | some a => loadRecords rest (dictInsert k a acc)
    | none => acc

/-- Embeds `AppointmentService._load_from_file` applied to a prior in-memory
state.  A missing file leaves the state untouched; an unreadable or corrupt
file raises inside the `try`, is caught and logged, and also leaves the
state untouched (the counter assignment sits after `json.load`).  Note the
method never clears `self.appointments` before inserting the file's records. -/
def loadFromFile (f : FileState) (prior : Store) : Store :=
  match f with
  | .missing => prior
  | .corrupt => prior
  | .data d => ⟨loadRecords d.appointments prior.appointments, d.counter.getD 0⟩

/-! ## Slot availability (`get_available_slots`) -/

/-- The `booked_slots` list comprehension of `get_available_slots`: times of
confirmed appointments for the requested doctor, date and department. -/
def booked_slots (st : Store) (date department doctor : String) : List String :=
  ((values st).filter (fun a =>
    a.date == date && a.department == department && a.doctor == doctor
      && a.status == "confirmed")).map Appointment.time

/-- Embeds `AppointmentService.get_available_slots` (the body after the
initial reload): the doctor's working slots minus booked slots, with slots
at or before the current time stripped when the date is today and an empty
result when the date is in the past; a date that fails to parse skips both
of those adjustments (`except ValueError: pass`). -/
def get_available_slots (c : Clock) (st : Store) (date department doctor : String) :
    List String :=
  let doctor_slots := get_doctor_time_slots doctor date
  if doctor_slots = [] then []
  else
    let available := doctor_slots.filter
      (fun s => !((booked_slots st date department doctor).contains s))
    match parseDate date with
    | some d =>
      if d = c.today then available.filter (fun s => strLt c.timeOfDay s)
      else if dateLtB d c.today then []
      else available
    | none => available

/-- The specification's description of `availableSlots`: empty for past
dates; otherwise `workingSlots(doctor, date)` minus the slots consumed by
confirmed appointments for that doctor/date/department, additionally
stripping every slot at or before the current time-of-day when the date is
today. -/
def availableSlotsSpec (c : Clock) (st : Store) (date department doctor : String) :
    List String :=
  match parseDate date with
  | none => []
  | some d =>
    if dateLtB d c.today then []
    else
      let remaining := (get_doctor_time_slots doctor date).filter
        (fun s => decide (s ∉ booked_slots st date department doctor))
      if d = c.today then remaining.filter (fun s => !(strLe s c.timeOfDay))
      else remaining

/-! ## Booking (`book_appointment`) -/

def GENDERS : List String := ["Male", "Female", "Other"]

structure BookResult where
  success : Bool
  error : Option String
  appointment : Option Appointment
  message : Option String
  store : Store
  written : Option FileData
deriving DecidableEq, Repr

/-- A failed booking: an error reason, no record created, nothing written. -/
def bookErr (st : Store) (e : String) : BookResult :=
  ⟨false, some e, none, none, st, none⟩

/-- The three store-dependent conflict filters of `book_appointment`. -/
def doctorBookedAtTime (st : Store) (doctor date time : String) : List Appointment :=
  (values st).filter (fun a =>
    a.doctor == doctor && a.date == date && a.time == time && a.status == "confirmed")

def userBookedAtTime (st : Store) (user_id date time : String) : List Appointment :=
  (values st).filter (fun a =>
    a.user_id == user_id && a.date == date && a.time == time && a.status == "confirmed")

def userSameDoctorSameDay (st : Store) (user_id doctor date : String) : List Appointment :=
  (values st).filter (fun a =>
    a.user_id == user_id && a.doctor == doctor && a.date == date && a.status == "confirmed")

/-- Embeds `AppointmentService.book_appointment` (the body after the initial
reload), with its checks in source order: department, doctor membership,
working slots, slot membership, date parse / past date, patient name, age,
gender, then the three conflict checks; on acceptance the counter is
incremented, the record is created with status `confirmed`, inserted, and
the whole store is saved. -/
def book_appointment (c : Clock) (st : Store) (user_id patient_name : String)
    (patient_age : Int) (patient_gender department doctor date time : String) :
    BookResult :=
  match deptDoctors department with
  | none => bookErr st "Invalid department"
  | some doctors =>
    if doctor ∉ doctors then bookErr st ("Doctor not in " ++ department)
    else
      let doctor_slots := get_doctor_time_slots doctor date
      if doctor_slots = [] then bookErr st (doctor ++ " is not available on this day")
      else if time ∉ doctor_slots then
        bookErr st ("Invalid time - " ++ doctor ++ " works " ++ schedStart doctor
          ++ " to " ++ schedEnd doctor)
      else
        match parseDate date with
        | none => bookErr st "Invalid date format (YYYY-MM-DD)"
        | some d =>
          if dateLtB d c.today then bookErr st "Cannot book in the past"
          else if (pyStrip patient_name).length < 2 then bookErr st "Invalid patient name"
          else if patient_age < 0 ∨ patient_age > 150 then bookErr st "Invalid age"
          else if patient_gender ∉ GENDERS then
            bookErr st "Gender must be Male, Female, or Other"
          else if doctorBookedAtTime st doctor date time ≠ [] then
            bookErr st (doctor ++ " already has an appointment at " ++ time ++ " on "
              ++ date ++ ". Please choose a different time.")
          else
            match userBookedAtTime st user_id date time with
            | existing :: _ =>
              bookErr st ("You already have an appointment with " ++ existing.doctor
                ++ " at " ++ time ++ " on " ++ date ++ ". Please choose a different time.")
            | [] =>
              match userSameDoctorSameDay st user_id doctor date with
              | existing :: _ =>
                bookErr st ("You already have an appointment with " ++ doctor ++ " at "
                  ++ existing.time ++ " on " ++ date
                  ++ ". You can only book one appointment per doctor per day.")
              | [] =>
                let counter' := st.counter + 1
                let apt_id := mkId c.todayCompact counter'
                let apt : Appointment :=
                  ⟨apt_id, user_id, pyStrip patient_name, patient_age, patient_gender,
                    department, doctor, date, time, "confirmed", c.isoNow⟩
                let appts' := dictInsert apt_id apt st.appointments
                let st' : Store := ⟨appts', counter'⟩
                let others := (appts'.map Prod.snd).filter (fun a =>
                  a.user_id == user_id && a.date == date && a.id != apt_id
                    && a.status == "confirmed")
                let msg := "Booked " ++ patient_name ++ " with " ++ doctor ++ " on "
                  ++ date ++ " at " ++ time
                let msg := if others = [] then msg
                  else msg ++ ". Note: You also have appointment(s) on this date with "
                    ++ String.intercalate ", "
                      (others.map (fun a => a.doctor ++ " at " ++ a.time))
                ⟨true, none, some apt, some msg, st', some (dumpStore st' c)⟩

/-! ## Cancellation -/

structure CancelResult where
  success : Bool
  error : Option String
  message : Option String
  patient_user_id : Option String
  store : Store
  written : Option FileData
deriving DecidableEq, Repr

def cancelErr (st : Store) (e : String) : CancelResult :=
  ⟨false, some e, none, none, st, none⟩

/-- Embeds `AppointmentService.cancel_appointment` (patient-initiated): the
record must exist and belong to the caller; the status is set to `cancelled`
whatever it currently is, and the store is saved. -/
def cancel_appointment (c : Clock) (st : Store) (appointment_id user_id : String) :
    CancelResult :=
  match dictGet appointment_id st.appointments with
  | none => cancelErr st "Appointment not found"
  | some apt =>
    if apt.user_id ≠ user_id then cancelErr st "Unauthorized"
    else
      let st' : Store := ⟨dictSetStatus appointment_id "cancelled" st.appointments, st.counter⟩
      ⟨true, none, some ("Appointment " ++ appointment_id ++ " cancelled"), none,
        st', some (dumpStore st' c)⟩

/-- Embeds `AppointmentService.cancel_appointment_by_doctor`: the record must
exist, be assigned to the named doctor and still be `confirmed`; the status
becomes `cancelled_by_doctor`, the optional reason is appended to the
message, and the patient's user id is returned. -/
def cancel_appointment_by_doctor (c : Clock) (st : Store)
    (appointment_id doctor_name reason : String) : CancelResult :=
  match dictGet appointment_id st.appointments with
  | none => cancelErr st "Appointment not found"
  | some apt =>
    if apt.doctor ≠ doctor_name then
      cancelErr st "Unauthorized - this appointment is not with you"
    else if apt.status ≠ "confirmed" then
      cancelErr st ("Cannot cancel - appointment is already " ++ apt.status)
    else
      let st' : Store :=
        ⟨dictSetStatus appointment_id "cancelled_by_doctor" st.appointments, st.counter⟩
      let msg := "Appointment " ++ appointment_id ++ " with " ++ apt.patient_name
        ++ " on " ++ apt.date ++ " at " ++ apt.time ++ " has been cancelled"
      let msg := if reason ≠ "" then msg ++ ". Reason: " ++ reason else msg
      ⟨true, none, some msg, some apt.user_id, st', some (dumpStore st' c)⟩

/-! ## Read-only queries -/

/-- Stable insertion sort: `x` is placed before the first element strictly
greater than it, so elements with equal keys keep their original order, as
Python's stable `list.sort` does. -/
def insertBeforeGt (lt : α → α → Bool) (x : α) : List α → List α
  | [] => [x]
  | y :: ys => if lt x y then x :: y :: ys else y :: insertBeforeGt lt x ys

def stableSort (lt : α → α → Bool) (l : List α) : List α :=
  l.foldl (fun acc x => insertBeforeGt lt x acc) []

/-- Strict `(date, time)` key comparison used by the query sorts. -/
def dateTimeLt (a b : Appointment) : Bool :=
  strLt a.date b.date || (a.date == b.date && strLt a.time b.time)

def timeLtKey (a b : Appointment) : Bool := strLt a.time b.time

/-- Embeds `AppointmentService._mark_expired_status` on a returned copy: if
the record's date and time parse and lie strictly before the clock, the
copy's status becomes `expired`; the comparison point is the clock's
current date and `HH:MM` time-of-day. -/
def mark_expired_status (c : Clock) (a : Appointment) : Appointment :=
  match parseDate a.date, parseTime a.time with
  | some d, some _ =>
    if dateLtB d c.today || (d == c.today && strLt a.time c.timeOfDay) then
      { a with status := "expired" }
    else a
  | _, _ => a

/-- Embeds `get_user_appointments`: the caller's records whose stored status
is `confirmed` (stored records are never `expired`), with the expired view
status resolved on the copies, sorted by `(date, time)`. -/
def get_user_appointments (c : Clock) (st : Store) (user_id : String) :
    List Appointment :=
  stableSort dateTimeLt (((values st).filter (fun a =>
    a.user_id == user_id && (a.status == "confirmed" || a.status == "expired"))).map
      (mark_expired_status c))

/-- Embeds `get_user_appointments_on_date`. -/
def get_user_appointments_on_date (st : Store) (user_id date : String) :
    List Appointment :=
  stableSort timeLtKey ((values st).filter (fun a =>
    a.user_id == user_id && a.date == date && a.status == "confirmed"))

/-- Embeds `get_all_appointments`. -/
def get_all_appointments (st : Store) : List Appointment :=
  stableSort dateTimeLt ((values st).filter (fun a => a.status == "confirmed"))

/-- Embeds `get_departments` (a defensive copy of the static catalog). -/
def get_departments : List (String × List String) := DEPARTMENTS

/-- Embeds `get_doctor_appointments_today`. -/
def get_doctor_appointments_today (c : Clock) (st : Store) (doctor_name : String) :
    List Appointment :=
  stableSort timeLtKey (((values st).filter (fun a =>
    a.doctor == doctor_name && a.date == formatDate c.today
      && (a.status == "confirmed" || a.status == "expired"))).map
        (mark_expired_status c))

/-- Embeds `get_doctor_all_appointments` (future confirmed ones, by string
comparison `apt.date >= today`). -/
def get_doctor_all_appointments (c : Clock) (st : Store) (doctor_name : String) :
    List Appointment :=
  stableSort dateTimeLt ((values st).filter (fun a =>
    a.doctor == doctor_name && strLe (formatDate c.today) a.date
      && a.status == "confirmed"))

/-- Predecessor calendar date, embedding one day of `timedelta(days=1)`. -/
def prevDay (d : Date) : Date :=
  if 1 < d.day then ⟨d.year, d.month, d.day - 1⟩
  else if 1 < d.month then ⟨d.year, d.month - 1, daysInMonth d.year (d.month - 1)⟩
  else ⟨d.year - 1, 12, 31⟩

def subDays (d : Date) : Nat → Date
  | 0 => d
  | n + 1 => subDays (prevDay d) n

/-- Embeds `get_doctor_past_week_appointments` (dates between seven days ago
and today by string comparison, sorted most recent first). -/
def get_doctor_past_week_appointments (c : Clock) (st : Store) (doctor_name : String) :
    List Appointment :=
  let week_ago := formatDate (subDays c.today 7)
  let today_str := formatDate c.today
  stableSort (fun a b => dateTimeLt b a) (((values st).filter (fun a =>
    a.doctor == doctor_name && strLe week_ago a.date && strLe a.date today_str
      && (a.status == "confirmed" || a.status == "expired"))).map
        (mark_expired_status c))

/-! ## The public operations as one transition system -/

inductive Op where
  | book (user_id patient_name : String) (patient_age : Int)
      (patient_gender department doctor date time : String)
  | cancel (appointment_id user_id : String)
  | cancelByDoctor (appointment_id doctor_name reason : String)
  | userAppointments (user_id : String)
  | userAppointmentsOnDate (user_id date : String)
  | allAppointments
  | departments
  | availableSlots (date department doctor : String)
  | doctorAppointmentsToday (doctor_name : String)
  | doctorAllAppointments (doctor_name : String)
  | doctorPastWeekAppointments (doctor_name : String)
deriving DecidableEq, Repr

/-- The effect of each public operation on the persisted appointment store;
queries read but never mutate. -/
def applyOp (c : Clock) (op : Op) (st : Store) : Store :=
  match op with
  | .book uid pn pa pg dep doc da t =>
    (book_appointment c st uid pn pa pg dep doc da t).store
  | .cancel aid uid => (cancel_appointment c st aid uid).store
  | .cancelByDoctor aid dn r => (cancel_appointment_by_doctor c st aid dn r).store
  | .userAppointments _ => st
  | .userAppointmentsOnDate _ _ => st
  | .allAppointments => st
  | .departments => st
  | .availableSlots _ _ _ => st
  | .doctorAppointmentsToday _ => st
  | .doctorAllAppointments _ => st
  | .doctorPastWeekAppointments _ => st

/-- The clock values a run of the real service can observe at a booking:
`strftime("%Y%m%d")` always yields eight characters. -/
def clockOK (c : Clock) (op : Op) : Prop :=
  match op with
  | .book _ _ _ _ _ _ _ _ => c.todayCompact.length = 8
  | _ => True

/-- Store states reachable from a fresh service (empty dict, zero counter)
through the public operations under realistic clocks. -/
inductive Reachable : Store → Prop where
  | empty : Reachable ⟨[], 0⟩
  | step {st : Store} (h : Reachable st) (c : Clock) (op : Op) (hc : clockOK c op) :
      Reachable (applyOp c op st)


/-! ## Association-list lemmas -/

theorem dictGet_mem {k : String} {l : List (String × α)} {a : α}
    (h : dictGet k l = some a) : (k, a) ∈ l := by
  induction l with
  | nil => simp [dictGet] at h
  | cons p rest ih =>
    obtain ⟨k', v⟩ := p
    by_cases hk : k' = k
    · subst hk
      simp [dictGet] at h
      simp [h]
    · simp [dictGet, hk] at h
      exact List.mem_cons_of_mem _ (ih h)

theorem dictGet_dictInsert (k k₀ : String) (v : Appointment)
    (l : List (String × Appointment)) :
    dictGet k (dictInsert k₀ v l) = if k₀ = k then some v else dictGet k l := by
  induction l with
  | nil => simp [dictInsert, dictGet]
  | cons q rest ih =>
    obtain ⟨k', v'⟩ := q
    by_cases hk : k' = k₀
    · subst hk
      by_cases h2 : k' = k <;> simp [dictInsert, dictGet, h2]
    · by_cases h2 : k' = k
      · subst h2
        have hne : ¬(k₀ = k') := fun hh => hk hh.symm
        simp [dictInsert, dictGet, hk, hne]
      · simp [dictInsert, dictGet, hk, h2, ih]

theorem dictGet_dictSetStatus (k k₀ s : String) (l : List (String × Appointment)) :
    dictGet k (dictSetStatus k₀ s l) =
      if k₀ = k then (dictGet k l).map (fun a => { a with status := s })
      else dictGet k l := by
  induction l with
  | nil => simp [dictSetStatus, dictGet]
  | cons q rest ih =>
    obtain ⟨k', v'⟩ := q
    by_cases hk : k' = k₀
    · subst hk
      by_cases h2 : k' = k <;> simp [dictSetStatus, dictGet, h2]
    · by_cases h2 : k' = k
      · subst h2
        have hne : ¬(k₀ = k') := fun hh => hk hh.symm
        simp [dictSetStatus, dictGet, hk, hne]
      · simp [dictSetStatus, dictGet, hk, h2, ih]

theorem mem_dictInsert {p : String × Appointment} {k : String} {v : Appointment}
    {l : List (String × Appointment)} (h : p ∈ dictInsert k v l) :
    p = (k, v) ∨ p ∈ l := by
  induction l with
  | nil => simpa [dictInsert] using h
  | cons q rest ih =>
    obtain ⟨k', v'⟩ := q
    by_cases hk : k' = k
    · subst hk
      simp [dictInsert] at h
      rcases h with h | h
      · exact Or.inl h
      · exact Or.inr (List.mem_cons_of_mem _ h)
    · simp [dictInsert, hk] at h
      rcases h with h | h
      · exact Or.inr (by simp [h])
      · rcases ih h with h' | h'
        · exact Or.inl h'
        · exact Or.inr (List.mem_cons_of_mem _ h')

theorem mem_dictSetStatus {p : String × Appointment} {k s : String}
    {l : List (String × Appointment)} (h : p ∈ dictSetStatus k s l) :
    ∃ q ∈ l, p.1 = q.1 ∧ (p.2 = q.2 ∨ p.2 = { q.2 with status := s }) := by
  induction l with
  | nil => simp [dictSetStatus] at h
  | cons q0 rest ih =>
    obtain ⟨k', v'⟩ := q0
    by_cases hk : k' = k
    · subst hk
      simp [dictSetStatus] at h
      rcases h with h | h
      · exact ⟨(k', v'), by simp, by simp [h], by simp [h]⟩
      · exact ⟨p, List.mem_cons_of_mem _ h, rfl, Or.inl rfl⟩
    · simp [dictSetStatus, hk] at h
      rcases h with h | h
      · exact ⟨(k', v'), by simp, by simp [h], by simp [h]⟩
      · obtain ⟨q, hq, h1, h2⟩ := ih h
        exact ⟨q, List.mem_cons_of_mem _ hq, h1, h2⟩

theorem dictInsert_of_fresh {k : String} {v : Appointment}
    {l : List (String × Appointment)} (h : dictGet k l = none) :
    dictInsert k v l = l ++ [(k, v)] := by
  induction l with
  | nil => simp [dictInsert]
  | cons q rest ih =>
    obtain ⟨k', v'⟩ := q
    by_cases hk : k' = k
    · simp [dictGet, hk] at h
    · simp [dictGet, hk] at h
      simp [dictInsert, hk, ih h]

theorem mem_values_of_mem {p : String × Appointment} {st : Store}
    (h : p ∈ st.appointments) : p.2 ∈ values st :=
  List.mem_map_of_mem Prod.snd h

/-! ## Concrete fixtures used by witnesses and counterexamples -/

def exClock : Clock := ⟨⟨2026, 10, 12⟩, "12:00", "20261012", "2026-10-12T12:00:00"⟩

def exApt : Appointment :=
  ⟨"APT-20261012-0001", "u1", "John Doe", 30, "Male", "Cardiology",
    "Dr. Harsh Sharma", "2026-10-13", "10:00", "confirmed", "2026-10-12T12:00:00"⟩

def exSt1 : Store := ⟨[("APT-20261012-0001", exApt)], 1⟩

/-! ## C5: patient-initiated cancellation -/

/-- C5: for every appointment id and user id, patient cancel fails with
`Appointment not found` when the id is absent (store unchanged, nothing
written), fails with `Unauthorized` when the record belongs to another user
(store unchanged, nothing written), and otherwise sets the record's status
to `cancelled` — whatever its current status — and persists the new store. -/
theorem patient_cancel_spec (c : Clock) (st : Store) (aid uid : String) :
    (dictGet aid st.appointments = none →
      cancel_appointment c st aid uid = cancelErr st "Appointment not found")
  ∧ (∀ a, dictGet aid st.appointments = some a → a.user_id ≠ uid →
      cancel_appointment c st aid uid = cancelErr st "Unauthorized")
  ∧ (∀ a, dictGet aid st.appointments = some a → a.user_id = uid →
      cancel_appointment c st aid uid =
        ⟨true, none, some ("Appointment " ++ aid ++ " cancelled"), none,
          ⟨dictSetStatus aid "cancelled" st.appointments, st.counter⟩,
          some (dumpStore ⟨dictSetStatus aid "cancelled" st.appointments, st.counter⟩ c)⟩) := by
  refine ⟨fun h => ?_, fun a h hne => ?_, fun a h he => ?_⟩
  · simp [cancel_appointment, h]
  · simp [cancel_appointment, h, hne]
  · simp [cancel_appointment, h, he]

/-- Witness for C5: all three branches at concrete inputs. -/
theorem patient_cancel_spec_witness :
    cancel_appointment exClock exSt1 "APT-20261012-0001" "u1" =
      ⟨true, none, some ("Appointment " ++ "APT-20261012-0001" ++ " cancelled"), none,
        ⟨dictSetStatus "APT-20261012-0001" "cancelled" exSt1.appointments, exSt1.counter⟩,
        some (dumpStore
          ⟨dictSetStatus "APT-20261012-0001" "cancelled" exSt1.appointments, exSt1.counter⟩
          exClock)⟩
  ∧ cancel_appointment exClock exSt1 "APT-0000" "u1" = cancelErr exSt1 "Appointment not found"
  ∧ cancel_appointment exClock exSt1 "APT-20261012-0001" "u2" = cancelErr exSt1 "Unauthorized" :=
  ⟨(patient_cancel_spec exClock exSt1 "APT-20261012-0001" "u1").2.2 exApt rfl rfl,
   (patient_cancel_spec exClock exSt1 "APT-0000" "u1").1 rfl,
   (patient_cancel_spec exClock exSt1 "APT-20261012-0001" "u2").2.1 exApt rfl (by decide)⟩

/-! ## C6: doctor-initiated cancellation -/

/-- C6: for every appointment id, doctor name and optional reason, doctor
cancel fails with not-found when the id is absent, with an authorization
error when the record's doctor differs, and with a state error when the
status is not `confirmed`; otherwise it sets the status to
`cancelled_by_doctor`, appends a non-empty reason to the message, returns
the patient's user id, and persists; every failure leaves the store
unchanged and writes nothing. -/
theorem doctor_cancel_spec (c : Clock) (st : Store) (aid dn reason : String) :
    (dictGet aid st.appointments = none →
      cancel_appointment_by_doctor c st aid dn reason =
        cancelErr st "Appointment not found")
  ∧ (∀ a, dictGet aid st.appointments = some a → a.doctor ≠ dn →
      cancel_appointment_by_doctor c st aid dn reason =
        cancelErr st "Unauthorized - this appointment is not with you")
  ∧ (∀ a, dictGet aid st.appointments = some a → a.doctor = dn → a.status ≠ "confirmed" →
      cancel_appointment_by_doctor c st aid dn reason =
        cancelErr st ("Cannot cancel - appointment is already " ++ a.status))
  ∧ (∀ a, dictGet aid st.appointments = some a → a.doctor = dn → a.status = "confirmed" →
      cancel_appointment_by_doctor c st aid dn reason =
        ⟨true, none,
          some (let msg := "Appointment " ++ aid ++ " with " ++ a.patient_name ++ " on "
              ++ a.date ++ " at " ++ a.time ++ " has been cancelled"
            if reason ≠ "" then msg ++ ". Reason: " ++ reason else msg),
          some a.user_id,
          ⟨dictSetStatus aid "cancelled_by_doctor" st.appointments, st.counter⟩,
          some (dumpStore
            ⟨dictSetStatus aid "cancelled_by_doctor" st.appointments, st.counter⟩ c)⟩) := by
  refine ⟨fun h => ?_, fun a h hne => ?_, fun a h he hs => ?_, fun a h he hs => ?_⟩
  · simp [cancel_appointment_by_doctor, h]
  · simp [cancel_appointment_by_doctor, h, hne]
  · simp [cancel_appointment_by_doctor, h, he, hs]
  · simp [cancel_appointment_by_doctor, h, he, hs]

/-- Witness for C6: success with a reason, plus the state-error branch on an
already-cancelled record. -/
theorem doctor_cancel_spec_witness :
    cancel_appointment_by_doctor exClock exSt1 "APT-20261012-0001" "Dr. Harsh Sharma" "emergency" =
      ⟨true, none,
        some (let msg := "Appointment " ++ "APT-20261012-0001" ++ " with " ++ exApt.patient_name
            ++ " on " ++ exApt.date ++ " at " ++ exApt.time ++ " has been cancelled"
          if "emergency" ≠ "" then msg ++ ". Reason: " ++ "emergency" else msg),
        some exApt.user_id,
        ⟨dictSetStatus "APT-20261012-0001" "cancelled_by_doctor" exSt1.appointments, exSt1.counter⟩,
        some (dumpStore
          ⟨dictSetStatus "APT-20261012-0001" "cancelled_by_doctor" exSt1.appointments,
            exSt1.counter⟩ exClock)⟩
  ∧ cancel_appointment_by_doctor exClock
      ⟨[("APT-20261012-0001", { exApt with status := "cancelled" })], 1⟩
      "APT-20261012-0001" "Dr. Harsh Sharma" "" =
      cancelErr ⟨[("APT-20261012-0001", { exApt with status := "cancelled" })], 1⟩
        ("Cannot cancel - appointment is already " ++ "cancelled") :=
  ⟨(doctor_cancel_spec exClock exSt1 "APT-20261012-0001" "Dr. Harsh Sharma" "emergency").2.2.2
      exApt rfl rfl rfl,
   (doctor_cancel_spec exClock ⟨[("APT-20261012-0001", { exApt with status := "cancelled" })], 1⟩
      "APT-20261012-0001" "Dr. Harsh Sharma" "").2.2.1
      { exApt with status := "cancelled" } rfl rfl (by decide)⟩

/-! ## C9: reload on a missing or corrupt durable medium -/

/-- Counterexample to C9: with a non-empty prior in-memory state, a corrupt
file does not produce an empty snapshot — `_load_from_file` never clears
`self.appointments`, and the exception is raised before the counter
assignment, so the prior map and counter survive intact. -/
theorem corrupt_reload_not_empty :
    loadFromFile FileState.corrupt exSt1 ≠ (⟨[], 0⟩ : Store) := by
  decide

/-- C9 (amended): if the durable medium is missing, unreadable or corrupt,
`reload()` leaves the prior in-memory snapshot exactly as it was (for a
freshly constructed service this is the empty snapshot) and propagates no
error — the embedding is a total function. -/
theorem reload_failure_keeps_prior_state (st : Store) :
    loadFromFile FileState.corrupt st = st ∧ loadFromFile FileState.missing st = st :=
  ⟨rfl, rfl⟩

/-! ## C8: save / reload round trip -/

theorem migrate_dumpApt (a : Appointment) : migrate (dumpApt a) = some a := rfl

theorem dictGet_append_none {k : String} {l₁ l₂ : List (String × Appointment)}
    (h : dictGet k l₁ = none) : dictGet k (l₁ ++ l₂) = dictGet k l₂ := by
  induction l₁ with
  | nil => simp
  | cons q rest ih =>
    obtain ⟨k', v⟩ := q
    by_cases hk : k' = k
    · simp [dictGet, hk] at h
    · simp [dictGet, hk] at h ⊢
      exact ih h

theorem loadRecords_dump (l : List (String × Appointment))
    (acc : List (String × Appointment)) (hnd : (l.map Prod.fst).Nodup)
    (hfresh : ∀ k ∈ l.map Prod.fst, dictGet k acc = none) :
    loadRecords (l.map (fun p => (p.1, dumpApt p.2))) acc = acc ++ l := by
  induction l generalizing acc with
  | nil => simp [loadRecords]
  | cons p rest ih =>
    obtain ⟨k, a⟩ := p
    have hk : dictGet k acc = none := hfresh k (by simp)
    obtain ⟨hnotmem, hndrest⟩ :
        (∀ x : Appointment, (k, x) ∉ rest) ∧ (rest.map Prod.fst).Nodup := by
      simpa using hnd
    have hstep : loadRecords ((rest.map (fun p => (p.1, dumpApt p.2)))) (dictInsert k a acc)
        = dictInsert k a acc ++ rest := by
      refine ih _ hndrest (fun k' hk' => ?_)
      have hne : k ≠ k' := by
        intro he
        obtain ⟨p, hp, hp1⟩ := List.mem_map.mp hk'
        have hpk : p = (k, p.2) := by
          rw [he, ← hp1]
        exact hnotmem p.2 (hpk ▸ hp)
      rw [dictInsert_of_fresh hk, dictGet_append_none (hfresh k' (by simp [hk']))]
      simp [dictGet, hne]
    calc loadRecords (((k, a) :: rest).map (fun p => (p.1, dumpApt p.2))) acc
        = loadRecords (rest.map (fun p => (p.1, dumpApt p.2))) (dictInsert k a acc) := by
          simp [loadRecords, migrate_dumpApt]
      _ = dictInsert k a acc ++ rest := hstep
      _ = acc ++ (k, a) :: rest := by rw [dictInsert_of_fresh hk]; simp

/-- C8: saving a snapshot whose appointment map has no duplicate keys (true
of every Python dict) and reloading it into a fresh service yields exactly
the saved appointment map and counter. -/
theorem save_reload_roundtrip (st : Store) (c : Clock)
    (hnd : (st.appointments.map Prod.fst).Nodup) :
    loadFromFile (FileState.data (dumpStore st c)) ⟨[], 0⟩ = st := by
  have h := loadRecords_dump st.appointments [] hnd (by simp [dictGet])
  simp [loadFromFile, dumpStore, h]

/-- Witness for C8 at a concrete one-record snapshot. -/
theorem save_reload_roundtrip_witness :
    loadFromFile (FileState.data (dumpStore exSt1 exClock)) ⟨[], 0⟩ = exSt1 :=
  save_reload_roundtrip exSt1 exClock (by decide)

/-! ## C3: working slots against the grid and the working-day set -/

/-- Counterexample to C3: the doctor-absent-from-registry fallback performs
no weekday check.  `Dr. House` is not in `DOCTOR_SCHEDULE`, 2026-10-11 is a
Sunday (weekday 6, not a default working day), yet the working slots are
not empty. -/
theorem unknown_doctor_sunday_slots_nonempty :
    schedGet "Dr. House" = none
  ∧ parseDate "2026-10-11" = some ⟨2026, 10, 11⟩
  ∧ weekday ⟨2026, 10, 11⟩ ∉ ([0, 1, 2, 3, 4] : List Nat)
  ∧ get_doctor_time_slots "Dr. House" "2026-10-11" ≠ [] := by
  refine ⟨by decide, by decide, by decide, by decide⟩

/-- C3 (amended): for every doctor and parseable date, the working slots are
a sublist (hence subset, in grid order) of `ALL_TIME_SLOTS`; for a doctor
present in the schedule registry they are empty whenever the date's weekday
is not in that doctor's working-day set; a doctor absent from the registry
receives the default 09:00-17:00 slot range on every date, with no weekday
check. -/
theorem working_slots_sublist_and_offday_empty (doctor date : String) (d : Date)
    (h : parseDate date = some d) :
    (get_doctor_time_slots doctor date).Sublist ALL_TIME_SLOTS
  ∧ (∀ sched, schedGet doctor = some sched → weekday d ∉ sched.days →
      get_doctor_time_slots doctor date = [])
  ∧ (schedGet doctor = none →
      get_doctor_time_slots doctor date =
        ALL_TIME_SLOTS.filter (fun s => strLe "09:00" s && strLt s "17:00")) := by
  refine ⟨?_, fun sched hs hw => ?_, fun hs => ?_⟩
  · unfold get_doctor_time_slots
    match hsg : schedGet doctor with
    | none => exact List.filter_sublist _
    | some sch =>
      rw [h]
      by_cases hw : weekday d ∈ sch.days
      · simp only [hw, if_pos]
        exact List.filter_sublist _
      · simp only [hw, if_neg, not_false_eq_true]
        exact List.nil_sublist _
  · simp [get_doctor_time_slots, hs, h, hw]
  · simp [get_doctor_time_slots, hs]

/-- Witness for C3 (amended): Dr. Nisha Patel works Tuesday and Thursday;
2026-10-12 is a Monday, so her slots are empty, and they are a sublist of
the grid. -/
theorem working_slots_sublist_and_offday_empty_witness :
    (get_doctor_time_slots "Dr. Nisha Patel" "2026-10-12").Sublist ALL_TIME_SLOTS
  ∧ get_doctor_time_slots "Dr. Nisha Patel" "2026-10-12" = [] := by
  have h := working_slots_sublist_and_offday_empty "Dr. Nisha Patel" "2026-10-12"
    ⟨2026, 10, 12⟩ (by decide)
  exact ⟨h.1, h.2.1 ⟨[1, 3], "10:00", "17:00"⟩ (by decide) (by decide)⟩

/-! ## C2: available slots against the specification -/

theorem dateLtB_irrefl (d : Date) : dateLtB d d = false := by
  simp [dateLtB]

theorem get_doctor_time_slots_sublist (doctor date : String) :
    (get_doctor_time_slots doctor date).Sublist ALL_TIME_SLOTS := by
  unfold get_doctor_time_slots
  split
  · exact List.filter_sublist _
  · split
    · exact List.nil_sublist _
    · split
      · exact List.filter_sublist _
      · exact List.nil_sublist _

theorem contains_eq_decide_mem (l : List String) (a : String) :
    l.contains a = decide (a ∈ l) := by
  induction l with
  | nil => simp
  | cons x xs ih => simp [List.contains_cons, ih, eq_comm]

/-- C2: for every clock, store, department, doctor and parseable date, the
source's `get_available_slots` computes exactly the specification's
description — `workingSlots(doctor, date)` minus the times of confirmed
appointments for that doctor/date/department, additionally stripping every
slot at or before the current time-of-day when the date is today, and empty
for dates strictly before today — and the result is a sublist of the slot
grid, hence in chronological grid order. -/
theorem available_slots_spec_correct (c : Clock) (st : Store)
    (date department doctor : String) (d : Date) (h : parseDate date = some d) :
    get_available_slots c st date department doctor =
      availableSlotsSpec c st date department doctor
  ∧ (get_available_slots c st date department doctor).Sublist ALL_TIME_SLOTS := by
  have hfil : ∀ ds : List String,
      ds.filter (fun s => !((booked_slots st date department doctor).contains s)) =
        ds.filter (fun s => decide (s ∉ booked_slots st date department doctor)) := by
    intro ds
    apply List.filter_congr
    intro s _
    rw [contains_eq_decide_mem]
    simp
  constructor
  · unfold get_available_slots availableSlotsSpec
    rw [h]
    by_cases hds : get_doctor_time_slots doctor date = []
    · by_cases hlt : dateLtB d c.today <;> by_cases he : d = c.today <;>
        simp [hds, hlt, he]
    · by_cases he : d = c.today
      · subst he
        simp [hds, dateLtB_irrefl, hfil, strLe]
      · by_cases hlt : dateLtB d c.today
        · simp [hds, he, hlt]
        · simp [hds, he, hlt, hfil]
  · unfold get_available_slots
    rw [h]
    have h1 : (get_doctor_time_slots doctor date).filter
        (fun s => !((booked_slots st date department doctor).contains s))
        |>.Sublist ALL_TIME_SLOTS :=
      (List.filter_sublist _).trans (get_doctor_time_slots_sublist doctor date)
    by_cases hds : get_doctor_time_slots doctor date = []
    · simp [hds]
    · by_cases he : d = c.today
      · simpa [hds, he] using (List.filter_sublist _).trans h1
      · by_cases hlt : dateLtB d c.today
        · simp [hds, he, hlt]
        · simpa [hds, he, hlt] using h1

/-- Witness for C2: a future date with one conflicting booking. -/
theorem available_slots_spec_correct_witness :
    get_available_slots exClock exSt1 "2026-10-13" "Cardiology" "Dr. Harsh Sharma" =
      availableSlotsSpec exClock exSt1 "2026-10-13" "Cardiology" "Dr. Harsh Sharma"
  ∧ (get_available_slots exClock exSt1 "2026-10-13" "Cardiology"
      "Dr. Harsh Sharma").Sublist ALL_TIME_SLOTS :=
  available_slots_spec_correct exClock exSt1 "2026-10-13" "Cardiology" "Dr. Harsh Sharma"
    ⟨2026, 10, 13⟩ (by decide)

/-! ## C4: booking validation order -/

/-- C4: `book_appointment` performs its checks in the exact documented
order.  Each conjunct states that when every earlier check passes and the
named check fails, the call rejects with that check's specific reason and
leaves the store untouched: unknown department; doctor outside the
department; no working slots for `(doctor, date)`; time not among the
working slots; unparseable date / date strictly before today; patient name
shorter than two characters after trimming; age outside `[0, 150]`; gender
outside the three accepted values; and then the three store-dependent
conflicts, each with its own reason string. -/
theorem booking_validation_order (c : Clock) (st : Store) (uid pname : String)
    (page : Int) (pgen dept doc date time : String) :
    (deptDoctors dept = none →
      book_appointment c st uid pname page pgen dept doc date time =
        bookErr st "Invalid department")
  ∧ (∀ docs, deptDoctors dept = some docs → doc ∉ docs →
      book_appointment c st uid pname page pgen dept doc date time =
        bookErr st ("Doctor not in " ++ dept))
  ∧ (∀ docs, deptDoctors dept = some docs → doc ∈ docs →
      get_doctor_time_slots doc date = [] →
      book_appointment c st uid pname page pgen dept doc date time =
        bookErr st (doc ++ " is not available on this day"))
  ∧ (∀ docs, deptDoctors dept = some docs → doc ∈ docs →
      get_doctor_time_slots doc date ≠ [] → time ∉ get_doctor_time_slots doc date →
      book_appointment c st uid pname page pgen dept doc date time =
        bookErr st ("Invalid time - " ++ doc ++ " works " ++ schedStart doc ++ " to "
          ++ schedEnd doc))
  ∧ (∀ docs, deptDoctors dept = some docs → doc ∈ docs →
      get_doctor_time_slots doc date ≠ [] → time ∈ get_doctor_time_slots doc date →
      parseDate date = none →
      book_appointment c st uid pname page pgen dept doc date time =
        bookErr st "Invalid date format (YYYY-MM-DD)")
  ∧ (∀ docs d, deptDoctors dept = some docs → doc ∈ docs →
      get_doctor_time_slots doc date ≠ [] → time ∈ get_doctor_time_slots doc date →
      parseDate date = some d → dateLtB d c.today = true →
      book_appointment c st uid pname page pgen dept doc date time =
        bookErr st "Cannot book in the past")
  ∧ (∀ docs d, deptDoctors dept = some docs → doc ∈ docs →
      get_doctor_time_slots doc date ≠ [] → time ∈ get_doctor_time_slots doc date →
      parseDate date = some d → dateLtB d c.today = false →
      (pyStrip pname).length < 2 →
      book_appointment c st uid pname page pgen dept doc date time =
        bookErr st "Invalid patient name")
  ∧ (∀ docs d, deptDoctors dept = some docs → doc ∈ docs →
      get_doctor_time_slots doc date ≠ [] → time ∈ get_doctor_time_slots doc date →
      parseDate date = some d → dateLtB d c.today = false →
      ¬(pyStrip pname).length < 2 → (page < 0 ∨ page > 150) →
      book_appointment c st uid pname page pgen dept doc date time =
        bookErr st "Invalid age")
  ∧ (∀ docs d, deptDoctors dept = some docs → doc ∈ docs →
      get_doctor_time_slots doc date ≠ [] → time ∈ get_doctor_time_slots doc date →
      parseDate date = some d → dateLtB d c.today = false →
      ¬(pyStrip pname).length < 2 → ¬(page < 0 ∨ page > 150) → pgen ∉ GENDERS →
      book_appointment c st uid pname page pgen dept doc date time =
        bookErr st "Gender must be Male, Female, or Other")
  ∧ (∀ docs d, deptDoctors dept = some docs → doc ∈ docs →
      get_doctor_time_slots doc date ≠ [] → time ∈ get_doctor_time_slots doc date →
      parseDate date = some d → dateLtB d c.today = false →
      ¬(pyStrip pname).length < 2 → ¬(page < 0 ∨ page > 150) → pgen ∈ GENDERS →
      doctorBookedAtTime st doc date time ≠ [] →
      book_appointment c st uid pname page pgen dept doc date time =
        bookErr st (doc ++ " already has an appointment at " ++ time ++ " on " ++ date
          ++ ". Please choose a different time."))
  ∧ (∀ docs d e rest, deptDoctors dept = some docs → doc ∈ docs →
      get_doctor_time_slots doc date ≠ [] → time ∈ get_doctor_time_slots doc date →
      parseDate date = some d → dateLtB d c.today = false →
      ¬(pyStrip pname).length < 2 → ¬(page < 0 ∨ page > 150) → pgen ∈ GENDERS →
      doctorBookedAtTime st doc date time = [] →
      userBookedAtTime st uid date time = e :: rest →
      book_appointment c st uid pname page pgen dept doc date time =
        bookErr st ("You already have an appointment with " ++ e.doctor ++ " at " ++ time
          ++ " on " ++ date ++ ". Please choose a different time."))
  ∧ (∀ docs d e rest, deptDoctors dept = some docs → doc ∈ docs →
      get_doctor_time_slots doc date ≠ [] → time ∈ get_doctor_time_slots doc date →
      parseDate date = some d → dateLtB d c.today = false →
      ¬(pyStrip pname).length < 2 → ¬(page < 0 ∨ page > 150) → pgen ∈ GENDERS →
      doctorBookedAtTime st doc date time = [] →
      userBookedAtTime st uid date time = [] →
      userSameDoctorSameDay st uid doc date = e :: rest →
      book_appointment c st uid pname page pgen dept doc date time =
        bookErr st ("You already have an appointment with " ++ doc ++ " at " ++ e.time
          ++ " on " ++ date ++ ". You can only book one appointment per doctor per day.")) := by
  refine ⟨fun h1 => ?_,
    fun docs h1 h2 => ?_,
    fun docs h1 h2 h3 => ?_,
    fun docs h1 h2 h3 h4 => ?_,
    fun docs h1 h2 h3 h4 h5 => ?_,
    fun docs d h1 h2 h3 h4 h5 h6 => ?_,
    fun docs d h1 h2 h3 h4 h5 h6 h7 => ?_,
    fun docs d h1 h2 h3 h4 h5 h6 h7 h8 => ?_,
    fun docs d h1 h2 h3 h4 h5 h6 h7 h8 h9 => ?_,
    fun docs d h1 h2 h3 h4 h5 h6 h7 h8 h9 h10 => ?_,
    fun docs d e rest h1 h2 h3 h4 h5 h6 h7 h8 h9 h10 h11 => ?_,
    fun docs d e rest h1 h2 h3 h4 h5 h6 h7 h8 h9 h10 h11 h12 => ?_⟩ <;>
  simp_all [book_appointment] <;>
  rw [if_neg (by omega), if_neg (by omega)]

/-- Witness for C4: the department check fires first, and with every earlier
check passing the doctor-slot conflict fires with its specific message. -/
theorem booking_validation_order_witness :
    book_appointment exClock exSt1 "u9" "Bob Lee" 40 "Male" "Astrology"
      "Dr. Harsh Sharma" "2026-10-13" "10:00" = bookErr exSt1 "Invalid department"
  ∧ book_appointment exClock exSt1 "u9" "Bob Lee" 40 "Male" "Cardiology"
      "Dr. Harsh Sharma" "2026-10-13" "10:00" =
      bookErr exSt1 ("Dr. Harsh Sharma" ++ " already has an appointment at " ++ "10:00"
        ++ " on " ++ "2026-10-13" ++ ". Please choose a different time.") :=
  ⟨(booking_validation_order exClock exSt1 "u9" "Bob Lee" 40 "Male" "Astrology"
      "Dr. Harsh Sharma" "2026-10-13" "10:00").1 (by decide),
   (booking_validation_order exClock exSt1 "u9" "Bob Lee" 40 "Male" "Cardiology"
      "Dr. Harsh Sharma" "2026-10-13" "10:00").2.2.2.2.2.2.2.2.2.1
      ["Dr. Harsh Sharma"] ⟨2026, 10, 13⟩ (by decide) (by decide) (by decide) (by decide)
      (by decide) (by decide) (by decide) (by decide) (by decide) (by decide)⟩

/-! ## C1: double-booking the same doctor slot -/

theorem value_mem_dictInsert (k : String) (v : Appointment)
    (l : List (String × Appointment)) : v ∈ (dictInsert k v l).map Prod.snd := by
  induction l with
  | nil => simp [dictInsert]
  | cons q rest ih =>
    obtain ⟨k', v'⟩ := q
    by_cases hk : k' = k
    · simp [dictInsert, hk]
    · simp only [dictInsert, hk, if_false, List.map_cons, List.mem_cons]
      exact Or.inr ih

/-- Inversion of a successful booking: every validation guard passed, and
the resulting store is the old one with the freshly numbered `confirmed`
record inserted. -/
theorem book_success_inv (c : Clock) (st : Store) (uid pname : String) (page : Int)
    (pgen dept doc date time : String)
    (h : (book_appointment c st uid pname page pgen dept doc date time).success = true) :
    ∃ docs d, deptDoctors dept = some docs ∧ doc ∈ docs ∧
      get_doctor_time_slots doc date ≠ [] ∧ time ∈ get_doctor_time_slots doc date ∧
      parseDate date = some d ∧ dateLtB d c.today = false ∧
      (book_appointment c st uid pname page pgen dept doc date time).store =
        ⟨dictInsert (mkId c.todayCompact (st.counter + 1))
          ⟨mkId c.todayCompact (st.counter + 1), uid, pyStrip pname, page, pgen, dept,
            doc, date, time, "confirmed", c.isoNow⟩ st.appointments, st.counter + 1⟩ := by
  obtain hdept | ⟨docs, hdept⟩ := (deptDoctors dept).eq_none_or_eq_some
  · simp [book_appointment, hdept, bookErr] at h
  by_cases hdoc : doc ∈ docs
  swap
  · simp [book_appointment, hdept, hdoc, bookErr] at h
  by_cases hslots : get_doctor_time_slots doc date = []
  · simp [book_appointment, hdept, hdoc, hslots, bookErr] at h
  by_cases htime : time ∈ get_doctor_time_slots doc date
  swap
  · simp [book_appointment, hdept, hdoc, hslots, htime, bookErr] at h
  obtain hd | ⟨d, hd⟩ := (parseDate date).eq_none_or_eq_some
  · simp [book_appointment, hdept, hdoc, hslots, htime, hd, bookErr] at h
  by_cases hlt : dateLtB d c.today = true
  · simp [book_appointment, hdept, hdoc, hslots, htime, hd, hlt, bookErr] at h
  rw [Bool.not_eq_true] at hlt
  by_cases hname : (pyStrip pname).length < 2
  · simp [book_appointment, hdept, hdoc, hslots, htime, hd, hlt, hname, bookErr] at h
  by_cases hage : page < 0 ∨ page > 150
  · simp [book_appointment, hdept, hdoc, hslots, htime, hd, hlt, hname, hage, bookErr] at h
  by_cases hgender : pgen ∈ GENDERS
  swap
  · simp [book_appointment, hdept, hdoc, hslots, htime, hd, hlt, hname, hage, hgender,
      bookErr] at h
  by_cases hdb : doctorBookedAtTime st doc date time = []
  swap
  · simp [book_appointment, hdept, hdoc, hslots, htime, hd, hlt, hname, hage, hgender,
      hdb, bookErr] at h
  rcases huser : userBookedAtTime st uid date time with _ | ⟨e, rest⟩
  swap
  · simp [book_appointment, hdept, hdoc, hslots, htime, hd, hlt, hname, hage, hgender,
      hdb, huser, bookErr] at h
  rcases husame : userSameDoctorSameDay st uid doc date with _ | ⟨e, rest⟩
  swap
  · simp [book_appointment, hdept, hdoc, hslots, htime, hd, hlt, hname, hage, hgender,
      hdb, huser, husame, bookErr] at h
  refine ⟨docs, d, hdept, hdoc, hslots, htime, hd, hlt, ?_⟩
  simp [book_appointment, hdept, hdoc, hslots, htime, hd, hlt, hname, hage, hgender,
    hdb, huser, husame]

/-- Counterexample to C1 as frozen: the second request names the same
doctor, date and time and a different user, the first call succeeds, the
second call fails — but with the gender-validation message, not the
doctor-slot-conflict one, because the structural checks run first. -/
theorem second_booking_invalid_gender_message :
    (book_appointment exClock ⟨[], 0⟩ "u1" "John Doe" 30 "Male" "Cardiology"
      "Dr. Harsh Sharma" "2026-10-13" "10:00").success = true
  ∧ book_appointment exClock
      (book_appointment exClock ⟨[], 0⟩ "u1" "John Doe" 30 "Male" "Cardiology"
        "Dr. Harsh Sharma" "2026-10-13" "10:00").store
      "u2" "Jane Roe" 25 "Alien" "Cardiology" "Dr. Harsh Sharma" "2026-10-13" "10:00" =
      bookErr
        (book_appointment exClock ⟨[], 0⟩ "u1" "John Doe" 30 "Male" "Cardiology"
          "Dr. Harsh Sharma" "2026-10-13" "10:00").store
        "Gender must be Male, Female, or Other"
  ∧ "Gender must be Male, Female, or Other" ≠
      "Dr. Harsh Sharma already has an appointment at 10:00 on 2026-10-13. Please choose a different time." :=
  ⟨rfl, rfl, by decide⟩

/-- C1 (amended): for every store and clock, if a first booking for
`(doctor, date, time)` succeeds, then a second booking for the same
department, doctor, date and time by a different user whose patient fields
pass the structural checks is rejected against the resulting store with the
doctor-slot-conflict message, and the store (hence the set of appointment
records) is unchanged by the failed call. -/
theorem second_booking_same_slot_rejected (c : Clock) (st : Store)
    (u1 n1 : String) (a1 : Int) (g1 u2 n2 : String) (a2 : Int)
    (g2 dept doc date time : String)
    (_hu : u1 ≠ u2)
    (h1 : (book_appointment c st u1 n1 a1 g1 dept doc date time).success = true)
    (hn2 : ¬(pyStrip n2).length < 2) (ha2 : ¬(a2 < 0 ∨ a2 > 150)) (hg2 : g2 ∈ GENDERS) :
    book_appointment c (book_appointment c st u1 n1 a1 g1 dept doc date time).store
        u2 n2 a2 g2 dept doc date time =
      bookErr (book_appointment c st u1 n1 a1 g1 dept doc date time).store
        (doc ++ " already has an appointment at " ++ time ++ " on " ++ date
          ++ ". Please choose a different time.") := by
  obtain ⟨docs, d, hdept, hdoc, hslots, htime, hd, hlt, hstore⟩ :=
    book_success_inv c st u1 n1 a1 g1 dept doc date time h1
  rw [hstore]
  have hmem : (⟨mkId c.todayCompact (st.counter + 1), u1, pyStrip n1, a1, g1, dept, doc,
      date, time, "confirmed", c.isoNow⟩ : Appointment) ∈
      values ⟨dictInsert (mkId c.todayCompact (st.counter + 1))
        ⟨mkId c.todayCompact (st.counter + 1), u1, pyStrip n1, a1, g1, dept, doc,
          date, time, "confirmed", c.isoNow⟩ st.appointments, st.counter + 1⟩ :=
    value_mem_dictInsert _ _ _
  have hconf : doctorBookedAtTime
      ⟨dictInsert (mkId c.todayCompact (st.counter + 1))
        ⟨mkId c.todayCompact (st.counter + 1), u1, pyStrip n1, a1, g1, dept, doc,
          date, time, "confirmed", c.isoNow⟩ st.appointments, st.counter + 1⟩
      doc date time ≠ [] := by
    refine List.ne_nil_of_mem
      (List.mem_filter.mpr ⟨hmem, by simp⟩ :
        (⟨mkId c.todayCompact (st.counter + 1), u1, pyStrip n1, a1, g1, dept, doc,
          date, time, "confirmed", c.isoNow⟩ : Appointment) ∈
          doctorBookedAtTime
            ⟨dictInsert (mkId c.todayCompact (st.counter + 1))
              ⟨mkId c.todayCompact (st.counter + 1), u1, pyStrip n1, a1, g1, dept, doc,
                date, time, "confirmed", c.isoNow⟩ st.appointments, st.counter + 1⟩
            doc date time)
  simp [book_appointment, hdept, hdoc, hslots, htime, hd, hlt, hn2, ha2, hg2, hconf]

/-- Witness for C1 (amended) at a concrete pair of requests. -/
theorem second_booking_same_slot_rejected_witness :
    book_appointment exClock
      (book_appointment exClock ⟨[], 0⟩ "u1" "John Doe" 30 "Male" "Cardiology"
        "Dr. Harsh Sharma" "2026-10-13" "10:00").store
      "u2" "Jane Roe" 25 "Female" "Cardiology" "Dr. Harsh Sharma" "2026-10-13" "10:00" =
      bookErr
        (book_appointment exClock ⟨[], 0⟩ "u1" "John Doe" 30 "Male" "Cardiology"
          "Dr. Harsh Sharma" "2026-10-13" "10:00").store
        ("Dr. Harsh Sharma" ++ " already has an appointment at " ++ "10:00" ++ " on "
          ++ "2026-10-13" ++ ". Please choose a different time.") :=
  second_booking_same_slot_rejected exClock ⟨[], 0⟩ "u1" "John Doe" 30 "Male"
    "u2" "Jane Roe" 25 "Female" "Cardiology" "Dr. Harsh Sharma" "2026-10-13" "10:00"
    (by decide) rfl (by decide) (by decide) (by decide)

/-! ## C10: booking a slot at or before the current time on the current date -/

/-- C10: `book_appointment` compares only the calendar date against today,
never the time-of-day, so a request for today at a slot at or before the
current time is still accepted whenever every other check passes — even
though `get_available_slots` never lists that slot for today. -/
theorem past_time_today_bookable_but_not_listed (c : Clock) (st : Store)
    (uid pname : String) (page : Int) (pgen dept doc date time : String)
    (docs : List String)
    (hdept : deptDoctors dept = some docs) (hdoc : doc ∈ docs)
    (htime : time ∈ get_doctor_time_slots doc date)
    (hd : parseDate date = some c.today)
    (hpast : strLt c.timeOfDay time = false)
    (hname : ¬(pyStrip pname).length < 2) (hage : ¬(page < 0 ∨ page > 150))
    (hgender : pgen ∈ GENDERS)
    (hc1 : doctorBookedAtTime st doc date time = [])
    (hc2 : userBookedAtTime st uid date time = [])
    (hc3 : userSameDoctorSameDay st uid doc date = []) :
    (book_appointment c st uid pname page pgen dept doc date time).success = true
  ∧ time ∉ get_available_slots c st date dept doc := by
  have hslots : get_doctor_time_slots doc date ≠ [] := List.ne_nil_of_mem htime
  constructor
  · simp [book_appointment, hdept, hdoc, hslots, htime, hd, dateLtB_irrefl, hname,
      hage, hgender, hc1, hc2, hc3]
  · unfold get_available_slots
    rw [hd]
    simp only [hslots, if_neg, not_false_eq_true, if_pos rfl]
    intro hmem
    have h2 := (List.mem_filter.mp hmem).2
    rw [hpast] at h2
    exact Bool.false_ne_true h2

/-- Witness for C10: at noon, the 10:00 slot of the current Monday is no
longer listed but still bookable. -/
theorem past_time_today_bookable_but_not_listed_witness :
    (book_appointment exClock ⟨[], 0⟩ "u1" "John Doe" 30 "Male" "Cardiology"
      "Dr. Harsh Sharma" "2026-10-12" "10:00").success = true
  ∧ "10:00" ∉ get_available_slots exClock ⟨[], 0⟩ "2026-10-12" "Cardiology"
      "Dr. Harsh Sharma" :=
  past_time_today_bookable_but_not_listed exClock ⟨[], 0⟩ "u1" "John Doe" 30 "Male"
    "Cardiology" "Dr. Harsh Sharma" "2026-10-12" "10:00" ["Dr. Harsh Sharma"]
    (by decide) (by decide) (by decide) (by decide) (by decide) (by decide) (by decide)
    (by decide) rfl rfl rfl

/-! ## Decimal representation lemmas for identifier freshness -/

theorem toDigitsGo_fuel {n : Nat} : ∀ (f₁ f₂ : Nat), n < f₁ → n < f₂ →
    toDigitsGo f₁ n = toDigitsGo f₂ n := by
  induction n using Nat.strong_induction_on with
  | _ n ih =>
    intro f₁ f₂ h₁ h₂
    obtain ⟨g₁, rfl⟩ : ∃ m, f₁ = m + 1 := ⟨f₁ - 1, by omega⟩
    obtain ⟨g₂, rfl⟩ : ∃ m, f₂ = m + 1 := ⟨f₂ - 1, by omega⟩
    simp only [toDigitsGo]
    by_cases h10 : n < 10
    · simp [h10]
    · have hdiv : n / 10 < n := Nat.div_lt_self (by omega) (by omega)
      have hg₁ : n / 10 < g₁ := by omega
      have hg₂ : n / 10 < g₂ := by omega
      simp only [h10, if_false]
      rw [ih (n / 10) hdiv g₁ g₂ hg₁ hg₂]

theorem toDigitsGo_ne_nil {f n : Nat} (h : n < f) : toDigitsGo f n ≠ [] := by
  obtain ⟨g, rfl⟩ : ∃ m, f = m + 1 := ⟨f - 1, by omega⟩
  simp only [toDigitsGo]
  by_cases h10 : n < 10 <;> simp [h10]

theorem toDigitsGo_head_ne_zero {n : Nat} : ∀ (f : Nat), 1 ≤ n → n < f →
    ∃ c t, toDigitsGo f n = c :: t ∧ c ≠ '0' := by
  induction n using Nat.strong_induction_on with
  | _ n ih =>
    intro f h1 hf
    obtain ⟨g, rfl⟩ : ∃ m, f = m + 1 := ⟨f - 1, by omega⟩
    by_cases h10 : n < 10
    · refine ⟨Nat.digitChar n, [], by simp [toDigitsGo, h10], ?_⟩
      have hd : ∀ m, m < 10 → 1 ≤ m → Nat.digitChar m ≠ '0' := by decide
      exact hd n h10 h1
    · have hdiv : n / 10 < n := Nat.div_lt_self (by omega) (by omega)
      have h1' : 1 ≤ n / 10 := by omega
      have hg : n / 10 < g := by omega
      obtain ⟨c, t, hct, hc⟩ := ih (n / 10) hdiv g h1' hg
      refine ⟨c, t ++ [Nat.digitChar (n % 10)], ?_, hc⟩
      simp only [toDigitsGo, h10, if_false]
      rw [hct]
      rfl

theorem toDigitsGo_inj {n₁ : Nat} : ∀ (n₂ f₁ f₂ : Nat), n₁ < f₁ → n₂ < f₂ →
    toDigitsGo f₁ n₁ = toDigitsGo f₂ n₂ → n₁ = n₂ := by
  induction n₁ using Nat.strong_induction_on with
  | _ n₁ ih =>
    intro n₂ f₁ f₂ h₁ h₂ heq
    obtain ⟨g₁, rfl⟩ : ∃ m, f₁ = m + 1 := ⟨f₁ - 1, by omega⟩
    obtain ⟨g₂, rfl⟩ : ∃ m, f₂ = m + 1 := ⟨f₂ - 1, by omega⟩
    have hdchar : ∀ a, a < 10 → ∀ b, b < 10 →
        Nat.digitChar a = Nat.digitChar b → a = b := by decide
    simp only [toDigitsGo] at heq
    by_cases ha : n₁ < 10 <;> by_cases hb : n₂ < 10
    · simp only [ha, hb, if_pos] at heq
      exact hdchar n₁ ha n₂ hb (by injection heq)
    · exfalso
      simp only [ha, hb, if_pos, if_false] at heq
      have hbdiv : n₂ / 10 < g₂ := by omega
      have hne := toDigitsGo_ne_nil hbdiv
      have hlen := congrArg List.length heq
      simp only [List.length_append, List.length_cons, List.length_nil] at hlen
      exact hne (List.eq_nil_of_length_eq_zero (by omega))
    · exfalso
      simp only [ha, hb, if_pos, if_false] at heq
      have hadiv : n₁ / 10 < g₁ := by omega
      have hne := toDigitsGo_ne_nil hadiv
      have hlen := congrArg List.length heq
      simp only [List.length_append, List.length_cons, List.length_nil] at hlen
      exact hne (List.eq_nil_of_length_eq_zero (by omega))
    · simp only [ha, hb, if_false] at heq
      obtain ⟨hpre, hlast⟩ := List.append_inj' heq (by simp)
      have hdiv₁ : n₁ / 10 < n₁ := Nat.div_lt_self (by omega) (by omega)
      have hg₁ : n₁ / 10 < g₁ := by omega
      have hg₂ : n₂ / 10 < g₂ := by omega
      have hdeq : n₁ / 10 = n₂ / 10 := ih (n₁ / 10) hdiv₁ (n₂ / 10) g₁ g₂ hg₁ hg₂ hpre
      have hm₁ : n₁ % 10 < 10 := Nat.mod_lt _ (by omega)
      have hm₂ : n₂ % 10 < 10 := Nat.mod_lt _ (by omega)
      have hmeq : n₁ % 10 = n₂ % 10 := hdchar _ hm₁ _ hm₂ (by injection hlast)
      omega

theorem natRepr_inj {n₁ n₂ : Nat} (h : natRepr n₁ = natRepr n₂) : n₁ = n₂ :=
  toDigitsGo_inj n₂ (n₁ + 1) (n₂ + 1) (Nat.lt_succ_self n₁) (Nat.lt_succ_self n₂) h

theorem natRepr_head_ne_zero {n : Nat} (h : 1 ≤ n) :
    ∃ c t, natRepr n = c :: t ∧ c ≠ '0' :=
  toDigitsGo_head_ne_zero (n + 1) h (Nat.lt_succ_self n)

theorem dropWhile_replicate_append (p : Char → Bool) (c : Char) (hp : p c = true)
    (k : Nat) (r : List Char) :
    (List.replicate k c ++ r).dropWhile p = r.dropWhile p := by
  induction k with
  | zero => simp
  | succ k ih => simp [List.replicate_succ, List.dropWhile_cons_of_pos hp, ih]

theorem padZeros_natRepr_inj {n₁ n₂ : Nat} (h₁ : 1 ≤ n₁) (h₂ : 1 ≤ n₂)
    (h : padZeros 4 (natRepr n₁) = padZeros 4 (natRepr n₂)) : n₁ = n₂ := by
  obtain ⟨c₁, t₁, hr₁, hc₁⟩ := natRepr_head_ne_zero h₁
  obtain ⟨c₂, t₂, hr₂, hc₂⟩ := natRepr_head_ne_zero h₂
  have hdrop := congrArg (List.dropWhile (fun ch => ch == '0')) h
  rw [padZeros, padZeros,
    dropWhile_replicate_append _ _ (by decide),
    dropWhile_replicate_append _ _ (by decide), hr₁, hr₂,
    List.dropWhile_cons_of_neg (by simpa using hc₁),
    List.dropWhile_cons_of_neg (by simpa using hc₂)] at hdrop
  exact natRepr_inj (hr₁.trans (hdrop.trans hr₂.symm))

theorem mkId_inj {dc₁ dc₂ : String} {n₁ n₂ : Nat} (h₁ : dc₁.length = 8)
    (h₂ : dc₂.length = 8) (hn₁ : 1 ≤ n₁) (hn₂ : 1 ≤ n₂)
    (h : mkId dc₁ n₁ = mkId dc₂ n₂) : n₁ = n₂ := by
  have hdata := congrArg String.data h
  simp only [mkId, String.data_append, List.append_assoc] at hdata
  obtain ⟨-, hdata⟩ := List.append_inj hdata rfl
  obtain ⟨-, hdata⟩ := List.append_inj hdata (by
    have e₁ : dc₁.data.length = 8 := h₁
    have e₂ : dc₂.data.length = 8 := h₂
    rw [e₁, e₂])
  obtain ⟨-, hdata⟩ := List.append_inj hdata rfl
  exact padZeros_natRepr_inj hn₁ hn₂ hdata

/-! ## C7: status and persistence invariants over all public operations -/

/-- Invariant of reachable stores: no persisted record carries the view
status `expired`, and every key is an `APT-` identifier whose sequence
number is positive and at most the current counter (so the next generated
identifier is always fresh). -/
def StoreInv (st : Store) : Prop :=
  ∀ p ∈ st.appointments, p.2.status ≠ "expired" ∧
    ∃ dc n, dc.length = 8 ∧ 1 ≤ n ∧ n ≤ st.counter ∧ p.1 = mkId dc n

theorem fresh_id_not_in {st : Store} (hinv : StoreInv st) {dc : String} {n : Nat}
    (hdc : dc.length = 8) (hn : st.counter < n) :
    dictGet (mkId dc n) st.appointments = none := by
  cases hget : dictGet (mkId dc n) st.appointments with
  | none => rfl
  | some a =>
    exfalso
    obtain ⟨-, dc', n', hdc', hn1', hn2', hk⟩ := hinv _ (dictGet_mem hget)
    have := mkId_inj hdc hdc' (by omega) hn1' hk
    omega

theorem book_fail_store (c : Clock) (st : Store) (uid pname : String) (page : Int)
    (pgen dept doc date time : String)
    (h : (book_appointment c st uid pname page pgen dept doc date time).success = false) :
    (book_appointment c st uid pname page pgen dept doc date time).store = st := by
  obtain hdept | ⟨docs, hdept⟩ := (deptDoctors dept).eq_none_or_eq_some
  · simp [book_appointment, hdept, bookErr]
  by_cases hdoc : doc ∈ docs
  swap
  · simp [book_appointment, hdept, hdoc, bookErr]
  by_cases hslots : get_doctor_time_slots doc date = []
  · simp [book_appointment, hdept, hdoc, hslots, bookErr]
  by_cases htime : time ∈ get_doctor_time_slots doc date
  swap
  · simp [book_appointment, hdept, hdoc, hslots, htime, bookErr]
  obtain hd | ⟨d, hd⟩ := (parseDate date).eq_none_or_eq_some
  · simp [book_appointment, hdept, hdoc, hslots, htime, hd, bookErr]
  by_cases hlt : dateLtB d c.today = true
  · simp [book_appointment, hdept, hdoc, hslots, htime, hd, hlt, bookErr]
  rw [Bool.not_eq_true] at hlt
  by_cases hname : (pyStrip pname).length < 2
  · simp [book_appointment, hdept, hdoc, hslots, htime, hd, hlt, hname, bookErr]
  by_cases hage : page < 0 ∨ page > 150
  · simp [book_appointment, hdept, hdoc, hslots, htime, hd, hlt, hname, hage, bookErr]
  by_cases hgender : pgen ∈ GENDERS
  swap
  · simp [book_appointment, hdept, hdoc, hslots, htime, hd, hlt, hname, hage, hgender,
      bookErr]
  by_cases hdb : doctorBookedAtTime st doc date time = []
  swap
  · simp [book_appointment, hdept, hdoc, hslots, htime, hd, hlt, hname, hage, hgender,
      hdb, bookErr]
  rcases huser : userBookedAtTime st uid date time with _ | ⟨e, rest⟩
  swap
  · simp [book_appointment, hdept, hdoc, hslots, htime, hd, hlt, hname, hage, hgender,
      hdb, huser, bookErr]
  rcases husame : userSameDoctorSameDay st uid doc date with _ | ⟨e, rest⟩
  swap
  · simp [book_appointment, hdept, hdoc, hslots, htime, hd, hlt, hname, hage, hgender,
      hdb, huser, husame, bookErr]
  exfalso
  simp [book_appointment, hdept, hdoc, hslots, htime, hd, hlt, hname, hage, hgender,
    hdb, huser, husame] at h

theorem book_store_cases (c : Clock) (st : Store) (uid pname : String) (page : Int)
    (pgen dept doc date time : String) :
    (book_appointment c st uid pname page pgen dept doc date time).store = st ∨
    (book_appointment c st uid pname page pgen dept doc date time).store =
      ⟨dictInsert (mkId c.todayCompact (st.counter + 1))
        ⟨mkId c.todayCompact (st.counter + 1), uid, pyStrip pname, page, pgen, dept,
          doc, date, time, "confirmed", c.isoNow⟩ st.appointments, st.counter + 1⟩ := by
  cases hsucc : (book_appointment c st uid pname page pgen dept doc date time).success with
  | false =>
    exact Or.inl (book_fail_store c st uid pname page pgen dept doc date time hsucc)
  | true =>
    obtain ⟨docs, d, -, -, -, -, -, -, hstore⟩ :=
      book_success_inv c st uid pname page pgen dept doc date time hsucc
    exact Or.inr hstore

theorem cancel_store_cases (c : Clock) (st : Store) (aid uid : String) :
    (cancel_appointment c st aid uid).store = st ∨
    (cancel_appointment c st aid uid).store =
      ⟨dictSetStatus aid "cancelled" st.appointments, st.counter⟩ := by
  unfold cancel_appointment
  repeat first
    | (left; rfl)
    | (right; rfl)
    | split

theorem cancel_by_doctor_store_cases (c : Clock) (st : Store) (aid dn reason : String) :
    (cancel_appointment_by_doctor c st aid dn reason).store = st ∨
    (cancel_appointment_by_doctor c st aid dn reason).store =
      ⟨dictSetStatus aid "cancelled_by_doctor" st.appointments, st.counter⟩ := by
  unfold cancel_appointment_by_doctor
  repeat first
    | (left; rfl)
    | (right; rfl)
    | split

theorem inv_setStatus {st : Store} (hinv : StoreInv st) (aid s : String)
    (hs : s ≠ "expired") : StoreInv ⟨dictSetStatus aid s st.appointments, st.counter⟩ := by
  intro p hp
  obtain ⟨q, hq, hk, hv⟩ := mem_dictSetStatus hp
  obtain ⟨hqs, dc, n, h8, h1n, hn, hkq⟩ := hinv q hq
  refine ⟨?_, dc, n, h8, h1n, hn, by rw [hk]; exact hkq⟩
  rcases hv with hv | hv
  · rw [hv]; exact hqs
  · rw [hv]; exact hs

theorem inv_applyOp {st : Store} (hinv : StoreInv st) (c : Clock) (op : Op)
    (hc : clockOK c op) : StoreInv (applyOp c op st) := by
  cases op with
  | book uid pname page pgen dept doc date time =>
    rcases book_store_cases c st uid pname page pgen dept doc date time with hcase | hcase
    · show StoreInv (book_appointment c st uid pname page pgen dept doc date time).store
      rw [hcase]; exact hinv
    · show StoreInv (book_appointment c st uid pname page pgen dept doc date time).store
      rw [hcase]
      intro p hp
      rcases mem_dictInsert hp with hP | hP
      · rw [hP]
        exact ⟨by simp, c.todayCompact, st.counter + 1, hc, by omega, le_refl _, rfl⟩
      · obtain ⟨hqs, dc, n, h8, h1n, hn, hkq⟩ := hinv p hP
        refine ⟨hqs, dc, n, h8, h1n, ?_, hkq⟩
        show n ≤ st.counter + 1
        omega
  | cancel aid uid =>
    rcases cancel_store_cases c st aid uid with hcase | hcase
    · show StoreInv (cancel_appointment c st aid uid).store
      rw [hcase]; exact hinv
    · show StoreInv (cancel_appointment c st aid uid).store
      rw [hcase]; exact inv_setStatus hinv aid "cancelled" (by decide)
  | cancelByDoctor aid dn reason =>
    rcases cancel_by_doctor_store_cases c st aid dn reason with hcase | hcase
    · show StoreInv (cancel_appointment_by_doctor c st aid dn reason).store
      rw [hcase]; exact hinv
    · show StoreInv (cancel_appointment_by_doctor c st aid dn reason).store
      rw [hcase]; exact inv_setStatus hinv aid "cancelled_by_doctor" (by decide)
  | userAppointments uid => exact hinv
  | userAppointmentsOnDate uid date => exact hinv
  | allAppointments => exact hinv
  | departments => exact hinv
  | availableSlots date dept doc => exact hinv
  | doctorAppointmentsToday dn => exact hinv
  | doctorAllAppointments dn => exact hinv
  | doctorPastWeekAppointments dn => exact hinv

theorem reachable_inv {st : Store} (h : Reachable st) : StoreInv st := by
  induction h with
  | empty => intro p hp; simp at hp
  | step h c op hc ih => exact inv_applyOp ih c op hc

/-- C7: from every reachable store state, every public operation — booking,
patient cancel, doctor cancel and all queries — keeps every existing key
present (records are never removed), never moves a record whose status has
left `confirmed` back to `confirmed`, and never persists the view status
`expired`.  Reachability runs from the fresh empty store under realistic
clocks (`strftime("%Y%m%d")` is eight characters), which makes every newly
generated identifier fresh. -/
theorem store_status_invariants (st : Store) (hr : Reachable st) (c : Clock) (op : Op)
    (hc : clockOK c op) :
    (∀ k a, dictGet k st.appointments = some a →
      ∃ a', dictGet k (applyOp c op st).appointments = some a' ∧
        (a.status ≠ "confirmed" → a'.status ≠ "confirmed"))
  ∧ (∀ k a', dictGet k (applyOp c op st).appointments = some a' →
      a'.status ≠ "expired") := by
  have hinv := reachable_inv hr
  have hinv' := inv_applyOp hinv c op hc
  refine ⟨?_, fun k a' hget' => (hinv' _ (dictGet_mem hget')).1⟩
  intro k a hget
  cases op with
  | book uid pname page pgen dept doc date time =>
    simp only [applyOp]
    rcases book_store_cases c st uid pname page pgen dept doc date time with hcase | hcase
    · rw [hcase]
      exact ⟨a, hget, fun h => h⟩
    · rw [hcase]
      have hne : mkId c.todayCompact (st.counter + 1) ≠ k := by
        intro he
        have h8 : c.todayCompact.length = 8 := hc
        have hfresh := fresh_id_not_in hinv h8 (Nat.lt_succ_self st.counter)
        rw [he, hget] at hfresh
        exact Option.noConfusion hfresh
      refine ⟨a, ?_, fun h => h⟩
      rw [dictGet_dictInsert, if_neg hne]
      exact hget
  | cancel aid uid =>
    simp only [applyOp]
    rcases cancel_store_cases c st aid uid with hcase | hcase
    · rw [hcase]
      exact ⟨a, hget, fun h => h⟩
    · rw [hcase]
      show ∃ a', dictGet k (dictSetStatus aid "cancelled" st.appointments) = some a' ∧ _
      rw [dictGet_dictSetStatus]
      by_cases hk : aid = k
      · rw [if_pos hk, hget]
        exact ⟨{ a with status := "cancelled" }, rfl, fun _ => by simp⟩
      · rw [if_neg hk]
        exact ⟨a, hget, fun h => h⟩
  | cancelByDoctor aid dn reason =>
    simp only [applyOp]
    rcases cancel_by_doctor_store_cases c st aid dn reason with hcase | hcase
    · rw [hcase]
      exact ⟨a, hget, fun h => h⟩
    · rw [hcase]
      show ∃ a', dictGet k (dictSetStatus aid "cancelled_by_doctor" st.appointments)
        = some a' ∧ _
      rw [dictGet_dictSetStatus]
      by_cases hk : aid = k
      · rw [if_pos hk, hget]
        exact ⟨{ a with status := "cancelled_by_doctor" }, rfl, fun _ => by simp⟩
      · rw [if_neg hk]
        exact ⟨a, hget, fun h => h⟩
  | userAppointments uid => exact ⟨a, hget, fun h => h⟩
  | userAppointmentsOnDate uid date => exact ⟨a, hget, fun h => h⟩
  | allAppointments => exact ⟨a, hget, fun h => h⟩
  | departments => exact ⟨a, hget, fun h => h⟩
  | availableSlots date dept doc => exact ⟨a, hget, fun h => h⟩
  | doctorAppointmentsToday dn => exact ⟨a, hget, fun h => h⟩
  | doctorAllAppointments dn => exact ⟨a, hget, fun h => h⟩
  | doctorPastWeekAppointments dn => exact ⟨a, hget, fun h => h⟩

/-- Witness for C7: one booking from the empty store, then a patient cancel;
the booked record stays present. -/
theorem store_status_invariants_witness :
    ∃ a', dictGet "APT-20261012-0001"
        (applyOp exClock (Op.cancel "APT-20261012-0001" "u1")
          (applyOp exClock (Op.book "u1" "John Doe" 30 "Male" "Cardiology"
            "Dr. Harsh Sharma" "2026-10-13" "10:00") ⟨[], 0⟩)).appointments = some a' ∧
      (exApt.status ≠ "confirmed" → a'.status ≠ "confirmed") :=
  (store_status_invariants
    (applyOp exClock (Op.book "u1" "John Doe" 30 "Male" "Cardiology"
      "Dr. Harsh Sharma" "2026-10-13" "10:00") ⟨[], 0⟩)
    (Reachable.step Reachable.empty exClock
      (Op.book "u1" "John Doe" 30 "Male" "Cardiology" "Dr. Harsh Sharma"
        "2026-10-13" "10:00")
      (by show exClock.todayCompact.length = 8; decide))
    exClock (Op.cancel "APT-20261012-0001" "u1") trivial).1
    "APT-20261012-0001" exApt (by decide)
